import Mathlib

set_option maxRecDepth 4000

/-!
Verification of the named_colors library: a shallow embedding of the color table,
its lookup and mutation operations, and the JSON table parser, together with
theorems about the documented behaviour.

The Rust HashMap of color names to Color records is embedded as an association
list with key-based access; u8 channels are embedded as Nat values (the parser
enforces the 0..255 bound exactly as serde does for u8).
-/

/-- Color record with the three RGB channels, mirroring the struct in colors.rs. -/
structure Color where
  r : Nat
  g : Nat
  b : Nat
deriving DecidableEq

/-- Embedding of the HashMap from String to Color as an association list. -/
abbrev ColorTable := List (String × Color)

/-- Embedding of HashMap.contains_key on the association list. -/
def containsKey (m : ColorTable) (k : String) : Bool :=
  m.any (fun p => p.1 == k)

/-- Embedding of HashMap.get on the association list. -/
def assocGet (m : ColorTable) (k : String) : Option Color :=
  match m with
  | [] => none
  | p :: rest => if p.1 == k then some p.2 else assocGet rest k

/-- Embedding of HashMap.insert on the association list: replaces an existing
binding of the key, otherwise appends a new one. -/
def insertAssoc (m : ColorTable) (k : String) (v : Color) : ColorTable :=
  if containsKey m k then
    m.map (fun p => if p.1 == k then (k, v) else p)
  else
    m ++ [(k, v)]

/-- Embedding of the error enum in errors.rs: ParseError wraps the decode
diagnostic of the underlying JSON decoder, Custom carries a message string. -/
inductive NamedColorsError where
  | ParseError (diag : String)
  | Custom (msg : String)
deriving DecidableEq

deriving instance DecidableEq for Except

/-- Embedding of str::to_lowercase, written over the character list of the
string; the theorem strToLower_eq_toLower below shows it agrees with the
standard String.toLower. -/
def strToLower (s : String) : String :=
  String.mk (s.data.map Char.toLower)

/-- Embedding of get_color_by_name from colors.rs: lowercase the requested name,
fetch it from the map and project the three channels. -/
def get_color_by_name (color_map : ColorTable) (color_name : String) :
    Option (Nat × Nat × Nat) :=
  let color_name := strToLower color_name
  (assocGet color_map color_name).map (fun color => (color.r, color.g, color.b))

/-- Embedding of the second get_color_by_name, the one in lib.rs, which uses an
if-let on the map access instead of Option.map. -/
def lib_get_color_by_name (color_map : ColorTable) (color_name : String) :
    Option (Nat × Nat × Nat) :=
  let color_name := strToLower color_name
  match assocGet color_map color_name with
  | some color => some (color.r, color.g, color.b)
  | none => none

/-- The duplicate message built by the format string in add_color. -/
def duplicateColorMessage (color_name : String) : String :=
  "The color \x27" ++ color_name ++ "\x27 already exists."

/-- Embedding of add_color from colors.rs. The Rust function mutates the map
through a mutable borrow and returns a Result of unit; here the result and the
map after the call are returned as a pair. -/
def add_color (color_map : ColorTable) (color_name : String) (r g b : Nat) :
    Except NamedColorsError Unit × ColorTable :=
  let color_name := strToLower color_name
  if containsKey color_map color_name then
    (Except.error (NamedColorsError.Custom (duplicateColorMessage color_name)), color_map)
  else
    (Except.ok (), insertAssoc color_map color_name { r := r, g := g, b := b })

/-! JSON parsing. colors.rs delegates to serde_json to decode a JSON object of
name to record-of-r,g,b entries into the HashMap. That external decoder is
embedded below as a recursive-descent parser for exactly that shape: an object
whose values are objects holding the numeric fields r, g and b once each (extra
numeric fields are tolerated, as serde ignores unknown fields), with each
channel bounded by 255 as serde enforces for u8. -/

/-- Whitespace accepted between JSON tokens. -/
def isJsonWs (c : Char) : Bool :=
  c == ' ' || c == '\n' || c == '\t' || c == '\r'

/-- Drop leading JSON whitespace. -/
def skipWs : List Char → List Char
  | [] => []
  | c :: cs => if isJsonWs c then skipWs cs else c :: cs

/-- Read the characters of a string literal up to the closing quote. Escapes and
control characters are rejected (no color name in this library uses them). -/
def parseStrChars : List Char → Option (List Char × List Char)
  | [] => none
  | c :: cs =>
    if c == '"' then some ([], cs)
    else if c == '\\' || decide (c.toNat < 32) then none
    else
      match parseStrChars cs with
      | some (ds, rest) => some (c :: ds, rest)
      | none => none

/-- Read a JSON string literal including its opening quote. -/
def parseStringLit : List Char → Option (String × List Char)
  | '"' :: cs => (parseStrChars cs).map (fun p => (String.mk p.1, p.2))
  | _ => none

/-- Split off the leading run of decimal digits. -/
def takeDigits : List Char → List Char × List Char
  | [] => ([], [])
  | c :: cs =>
    if c.isDigit then
      let p := takeDigits cs
      (c :: p.1, p.2)
    else ([], c :: cs)

/-- Value of a digit run. -/
def digitsToNat (ds : List Char) : Nat :=
  ds.foldl (fun acc c => acc * 10 + (c.toNat - 48)) 0

/-- Read a JSON non-negative integer; leading zeros are rejected as in JSON. -/
def parseNumber (cs : List Char) : Option (Nat × List Char) :=
  match takeDigits cs with
  | ([], _) => none
  | ([d], rest) => some (digitsToNat [d], rest)
  | (d :: ds, rest) => if d == '0' then none else some (digitsToNat (d :: ds), rest)

/-- Read the members of an object of string-to-number fields, after its opening
brace, closing brace included. Fuel bounds the recursion. -/
def parseNumFields : Nat → List Char → Option (List (String × Nat) × List Char)
  | 0, _ => none
  | fuel + 1, cs =>
    match parseStringLit (skipWs cs) with
    | none => none
    | some (key, cs1) =>
      match skipWs cs1 with
      | ':' :: cs2 =>
        match parseNumber (skipWs cs2) with
        | none => none
        | some (n, cs3) =>
          match skipWs cs3 with
          | ',' :: cs4 =>
            match parseNumFields fuel cs4 with
            | some (fields, rest) => some ((key, n) :: fields, rest)
            | none => none
          | '}' :: cs4 => some ([(key, n)], cs4)
          | _ => none
      | _ => none

/-- Number of fields with the given key. -/
def countKey (fields : List (String × Nat)) (k : String) : Nat :=
  (fields.filter (fun p => p.1 == k)).length

/-- First field with the given key. -/
def lookupField (fields : List (String × Nat)) (k : String) : Option Nat :=
  (fields.find? (fun p => p.1 == k)).map (fun p => p.2)

/-- Read one Color record: an object holding r, g and b exactly once, each at
most 255 as serde enforces when decoding into u8. -/
def parseColorObj (fuel : Nat) (cs : List Char) : Option (Color × List Char) :=
  match skipWs cs with
  | '{' :: cs1 =>
    match parseNumFields fuel cs1 with
    | none => none
    | some (fields, rest) =>
      if countKey fields "r" == 1 && countKey fields "g" == 1 && countKey fields "b" == 1 then
        match lookupField fields "r", lookupField fields "g", lookupField fields "b" with
        | some r, some g, some b =>
          if r ≤ 255 && g ≤ 255 && b ≤ 255 then
            some ({ r := r, g := g, b := b }, rest)
          else none
        | _, _, _ => none
      else none
  | _ => none

/-- Read the members of the top-level object after its opening brace, closing
brace included, accumulating entries with HashMap insertion semantics. -/
def parseEntries : Nat → List Char → ColorTable → Option (ColorTable × List Char)
  | 0, _, _ => none
  | fuel + 1, cs, acc =>
    match parseStringLit (skipWs cs) with
    | none => none
    | some (key, cs1) =>
      match skipWs cs1 with
      | ':' :: cs2 =>
        match parseColorObj fuel cs2 with
        | none => none
        | some (c, cs3) =>
          match skipWs cs3 with
          | ',' :: cs4 => parseEntries fuel cs4 (insertAssoc acc key c)
          | '}' :: cs4 => some (insertAssoc acc key c, cs4)
          | _ => none
      | _ => none

/-- Embedding of the serde_json decode of a whole color table: a JSON object of
name to Color entries, with nothing but whitespace after it. -/
def parseColorMap (s : String) : Option ColorTable :=
  let cs := s.data
  match skipWs cs with
  | '{' :: cs1 =>
    match skipWs cs1 with
    | '}' :: cs2 => if skipWs cs2 == [] then some [] else none
    | _ =>
      match parseEntries (cs.length + 1) cs1 [] with
      | none => none
      | some (m, rest) => if skipWs rest == [] then some m else none
  | _ => none

/-- The decode diagnostic wrapped by ParseError in this embedding; serde reports
a positional message, embedded here as a fixed description of the failure. -/
def parseDiagnostic : String := "expected a JSON object mapping color names to r,g,b records"

/-- Embedding of load_colors_from_file from colors.rs: decode the user string
and wrap a decode failure in ParseError. -/
def load_colors_from_file (json_data : String) : Except NamedColorsError ColorTable :=
  match parseColorMap json_data with
  | some color_map => Except.ok color_map
  | none => Except.error (NamedColorsError.ParseError parseDiagnostic)

/-- Modelled from the spec: the bundled asset assets/named_colors.json is
compiled into the library and its content is not among the provided sources;
the spec requires that parsing it succeeds and that it contains at least the
entry mapping "red" to (255, 0, 0), so the model carries exactly that entry. -/
def bundled_named_colors_json : String :=
  "\x7b\"red\": \x7b\"r\": 255, \"g\": 0, \"b\": 0\x7d\x7d"

/-- Embedding of load_colors from colors.rs: decode the bundled asset. -/
def load_colors : Except NamedColorsError ColorTable :=
  load_colors_from_file bundled_named_colors_json

/-- The 24-hour cache TTL of the remote resolver, in seconds. -/
def CACHE_TTL_SECONDS : Nat := 24 * 60 * 60

/-- A cache file: its bytes and its filesystem modification time in seconds. -/
structure CacheEntry where
  bytes : String
  lastModified : Nat
deriving DecidableEq

/-- Inputs of one remote resolution: the current time, the state of the cache
file, and the bytes the remote endpoint would serve. -/
structure RemoteEnv where
  now : Nat
  cache : Option CacheEntry
  remoteBody : String
deriving DecidableEq

/-- Observable outcome of one remote resolution: whether a network fetch
happened, the bytes served, and the cache file afterwards. -/
structure RemoteOutcome where
  didFetch : Bool
  bytes : String
  cacheAfter : Option CacheEntry
deriving DecidableEq

/-- Modelled from the spec: the remote-with-cache resolver (load_remote_cached)
is not among the provided sources. Following section 4.1, a cache file fresher
than the 24-hour TTL is served without fetching; an absent or stale cache file
causes a fetch whose bytes overwrite the cache file and are returned. -/
def load_remote_cached (env : RemoteEnv) : RemoteOutcome :=
  match env.cache with
  | some entry =>
    if env.now - entry.lastModified < CACHE_TTL_SECONDS then
      { didFetch := false, bytes := entry.bytes, cacheAfter := some entry }
    else
      { didFetch := true, bytes := env.remoteBody,
        cacheAfter := some { bytes := env.remoteBody, lastModified := env.now } }
  | none =>
    { didFetch := true, bytes := env.remoteBody,
      cacheAfter := some { bytes := env.remoteBody, lastModified := env.now } }

/-- The all-keys-lowercase invariant claimed by the spec for every table. -/
def keysLowercase (m : ColorTable) : Prop :=
  ∀ p ∈ m, strToLower p.1 = p.1

instance (m : ColorTable) : Decidable (keysLowercase m) :=
  List.decidableBAll _ m

/-- The sample user JSON of the spec scenario. -/
def blue_json : String := "\x7b\"blue\": \x7b\"r\":0,\"g\":0,\"b\":255\x7d\x7d"

/-- JSON whose key is spelled with an uppercase letter. -/
def mixed_case_json : String := "\x7b\"Blue\": \x7b\"r\":0,\"g\":0,\"b\":255\x7d\x7d"

/-! Helper lemmas. -/

/-- strToLower agrees with the standard String.toLower. -/
theorem strToLower_eq_toLower (s : String) : strToLower s = s.toLower :=
  (String.map_eq Char.toLower s).symm

/-- Packing a valid codepoint and unpacking it round-trips. -/
theorem char_toNat_ofNat_valid (n : Nat) (h : n < 55296) : (Char.ofNat n).toNat = n := by
  rw [Char.ofNat, dif_pos (Or.inl h)]
  rfl

/-- Lowercasing a character twice is the same as lowercasing it once. -/
theorem char_toLower_toLower (c : Char) : c.toLower.toLower = c.toLower := by
  by_cases h : c.toNat ≥ 65 ∧ c.toNat ≤ 90
  · have h1 : c.toLower = Char.ofNat (c.toNat + 32) := by
      simp only [Char.toLower]
      rw [if_pos h]
    have h2 : (Char.ofNat (c.toNat + 32)).toNat = c.toNat + 32 :=
      char_toNat_ofNat_valid _ (by omega)
    rw [h1]
    simp only [Char.toLower]
    rw [h2, if_neg (by omega)]
  · have h1 : c.toLower = c := by
      simp only [Char.toLower]
      rw [if_neg h]
    rw [h1, h1]

/-- Lowercasing a string twice is the same as lowercasing it once. -/
theorem strToLower_idem (s : String) : strToLower (strToLower s) = strToLower s := by
  have hcomp : Char.toLower ∘ Char.toLower = Char.toLower := funext char_toLower_toLower
  simp only [strToLower]
  rw [List.map_map, hcomp]

/-- A key the table does not contain is not found by assocGet. -/
theorem assocGet_eq_none (m : ColorTable) (k : String) (h : containsKey m k = false) :
    assocGet m k = none := by
  induction m with
  | nil => rfl
  | cons p rest ih =>
    simp only [containsKey, List.any_cons, Bool.or_eq_false_iff] at h
    simp only [assocGet]
    rw [if_neg (by simp [h.1])]
    exact ih h.2

/-- Appending a binding for a key not yet found makes assocGet find it. -/
theorem assocGet_append (m : ColorTable) (k : String) (v : Color)
    (h : assocGet m k = none) : assocGet (m ++ [(k, v)]) k = some v := by
  induction m with
  | nil => simp [assocGet]
  | cons p rest ih =>
    simp only [assocGet] at h
    by_cases hk : (p.1 == k) = true
    · rw [if_pos hk] at h
      cases h
    · rw [if_neg hk] at h
      rw [List.cons_append]
      simp only [assocGet]
      rw [if_neg hk]
      exact ih h

/-! Claims. -/

/-- Claim C1: for every color table and every name whose lowercased form is a key of the
table, get_color_by_name returns some of the exact stored Color for that key, whatever the
letter case of the input name; moreover loading the table from the sample JSON string with
the single entry mapping "blue" to (0, 0, 255) and then looking up "BLUE" returns
some (0, 0, 255). -/
theorem claim_C1_lookup_case_insensitive (m : ColorTable) (name : String) (c : Color)
    (h : assocGet m (strToLower name) = some c) :
    get_color_by_name m name = some (c.r, c.g, c.b) ∧
      ∃ t, load_colors_from_file blue_json = Except.ok t ∧
        get_color_by_name t "BLUE" = some (0, 0, 255) := by
  refine ⟨?_, [("blue", ⟨0, 0, 255⟩)], by decide, by decide⟩
  simp only [get_color_by_name]
  rw [h]
  rfl

/-- Witness for claim C1 at a concrete table and a mixed-case name. -/
theorem claim_C1_witness :
    get_color_by_name [("blue", ⟨0, 0, 255⟩)] "Blue" = some (0, 0, 255) :=
  (claim_C1_lookup_case_insensitive [("blue", ⟨0, 0, 255⟩)] "Blue" ⟨0, 0, 255⟩ (by decide)).1

/-- Counterexample to claim C2: loading JSON whose key is spelled "Blue" produces a table
whose key keeps the uppercase letter, so the all-keys-lowercase invariant fails for tables
parsed from mixed-case JSON. -/
theorem claim_C2_counterexample :
    load_colors_from_file mixed_case_json = Except.ok [("Blue", ⟨0, 0, 255⟩)] ∧
      ¬ keysLowercase [("Blue", ⟨0, 0, 255⟩)] :=
  ⟨by decide, by decide⟩

/-- Claim C2 as amended: tables touched by add_color keep the all-keys-lowercase
invariant, since add_color inserts only the lowercased name; tables decoded from JSON keep
their keys verbatim, so their keys are lowercase only when the JSON spells them so. -/
theorem claim_C2_amended_add_preserves_lowercase (m : ColorTable) (name : String)
    (r g b : Nat) (h : keysLowercase m) :
    keysLowercase (add_color m name r g b).2 := by
  simp only [add_color]
  by_cases hc : containsKey m (strToLower name) = true
  · rw [if_pos hc]
    exact h
  · rw [if_neg hc]
    simp only [insertAssoc]
    rw [if_neg hc]
    intro p hp
    rcases List.mem_append.mp hp with hm | hnew
    · exact h p hm
    · have hp1 : p.1 = strToLower name := by
        simp only [List.mem_singleton] at hnew
        rw [hnew]
      rw [hp1]
      exact strToLower_idem name

/-- Witness for the amended claim C2 at a concrete table and name. -/
theorem claim_C2_amended_witness :
    keysLowercase (add_color [("red", ⟨255, 0, 0⟩)] "BLUE" 0 0 255).2 :=
  claim_C2_amended_add_preserves_lowercase [("red", ⟨255, 0, 0⟩)] "BLUE" 0 0 255 (by decide)

/-- Claim C3: adding a name whose lowercased form is already a key fails with the
duplicate error carrying that name in its message, and the table is unchanged. -/
theorem claim_C3_duplicate_rejected (m : ColorTable) (name : String) (r g b : Nat)
    (h : containsKey m (strToLower name) = true) :
    (add_color m name r g b).2 = m ∧
      ∃ msg, (add_color m name r g b).1 = Except.error (NamedColorsError.Custom msg) ∧
        ∃ pre post, msg = pre ++ strToLower name ++ post := by
  simp only [add_color]
  rw [if_pos h]
  exact ⟨rfl, duplicateColorMessage (strToLower name), rfl,
    "The color \x27", "\x27 already exists.", rfl⟩

/-- Witness for claim C3 at a concrete table and a mixed-case duplicate. -/
theorem claim_C3_witness :
    (add_color [("blue", ⟨0, 0, 255⟩)] "BLUE" 255 0 0).2 = [("blue", ⟨0, 0, 255⟩)] :=
  (claim_C3_duplicate_rejected [("blue", ⟨0, 0, 255⟩)] "BLUE" 255 0 0 (by decide)).1

/-- Claim C4: adding a name whose lowercased form is not yet a key succeeds, and a
following lookup of the same name in any letter case returns the just-added Color. -/
theorem claim_C4_add_then_lookup (m : ColorTable) (name : String) (r g b : Nat)
    (h : containsKey m (strToLower name) = false) :
    (add_color m name r g b).1 = Except.ok () ∧
      ∀ q : String, strToLower q = strToLower name →
        get_color_by_name (add_color m name r g b).2 q = some (r, g, b) := by
  have hne : ¬ containsKey m (strToLower name) = true := by
    rw [h]
    exact Bool.false_ne_true
  simp only [add_color]
  rw [if_neg hne]
  refine ⟨rfl, ?_⟩
  intro q hq
  simp only [get_color_by_name]
  rw [hq]
  simp only [insertAssoc]
  rw [if_neg hne]
  rw [assocGet_append m (strToLower name) _ (assocGet_eq_none m _ h)]
  rfl

/-- Witness for claim C4: add a color to the empty table and look it up in caps. -/
theorem claim_C4_witness :
    (add_color [] "Sky" 1 2 3).1 = Except.ok () ∧
      get_color_by_name (add_color [] "Sky" 1 2 3).2 "SKY" = some (1, 2, 3) :=
  ⟨(claim_C4_add_then_lookup [] "Sky" 1 2 3 (by decide)).1,
   (claim_C4_add_then_lookup [] "Sky" 1 2 3 (by decide)).2 "SKY" (by decide)⟩

/-- Claim C5: looking up a name whose lowercased form is not a key returns none; the
lookup is a total function into Option, so absence is an empty result, never a fault. -/
theorem claim_C5_lookup_absent (m : ColorTable) (name : String)
    (h : containsKey m (strToLower name) = false) :
    get_color_by_name m name = none := by
  simp only [get_color_by_name]
  rw [assocGet_eq_none m _ h]
  rfl

/-- Witness for claim C5 at a concrete table and an absent name. -/
theorem claim_C5_witness :
    get_color_by_name [("blue", ⟨0, 0, 255⟩)] "Emerald" = none :=
  claim_C5_lookup_absent [("blue", ⟨0, 0, 255⟩)] "Emerald" (by decide)

/-- Claim C6: every input the decoder rejects makes load_colors_from_file return a
ParseError wrapping the decode diagnostic, and ParseError is distinguishable from the
other error variant, so callers can branch on malformed input; the embedding is a total
function, so no input panics. -/
theorem claim_C6_malformed_input (s : String) (h : parseColorMap s = none) :
    (∃ diag, load_colors_from_file s = Except.error (NamedColorsError.ParseError diag)) ∧
      ∀ diag msg, NamedColorsError.ParseError diag ≠ NamedColorsError.Custom msg := by
  refine ⟨⟨parseDiagnostic, ?_⟩, fun diag msg hne => NamedColorsError.noConfusion hne⟩
  simp only [load_colors_from_file, h]

/-- Witness for claim C6 at a concrete malformed input. -/
theorem claim_C6_witness :
    load_colors_from_file "not a json color table" =
        Except.error (NamedColorsError.ParseError parseDiagnostic) ∧
      NamedColorsError.ParseError parseDiagnostic ≠
        NamedColorsError.Custom parseDiagnostic := by
  have h := claim_C6_malformed_input "not a json color table" (by decide)
  exact ⟨by decide, h.2 parseDiagnostic parseDiagnostic⟩

/-- Claim C7: loading the bundled asset succeeds and the resulting table maps "red"
to (255, 0, 0). -/
theorem claim_C7_bundled_contains_red :
    ∃ t, load_colors = Except.ok t ∧ get_color_by_name t "red" = some (255, 0, 0) :=
  ⟨[("red", ⟨255, 0, 0⟩)], by decide, by decide⟩

/-- Claim C8: a cache file fresher than the 24-hour TTL is served without a network
fetch and left in place; an absent or stale cache file causes a fetch whose bytes are
served and overwrite the cache file. -/
theorem claim_C8_cache_freshness (env : RemoteEnv) :
    (∀ entry, env.cache = some entry →
        env.now - entry.lastModified < CACHE_TTL_SECONDS →
          (load_remote_cached env).didFetch = false ∧
            (load_remote_cached env).bytes = entry.bytes ∧
            (load_remote_cached env).cacheAfter = env.cache) ∧
      ((env.cache = none ∨ ∃ entry, env.cache = some entry ∧
            ¬ env.now - entry.lastModified < CACHE_TTL_SECONDS) →
        (load_remote_cached env).didFetch = true ∧
          (load_remote_cached env).bytes = env.remoteBody ∧
          (load_remote_cached env).cacheAfter =
            some { bytes := env.remoteBody, lastModified := env.now }) := by
  constructor
  · intro entry he hf
    simp [load_remote_cached, he, hf]
  · rintro (he | ⟨entry, he, hs⟩)
    · simp [load_remote_cached, he]
    · simp [load_remote_cached, he, hs]

/-- Witness for claim C8: a fresh cache is served without fetching, a stale one is
refetched. -/
theorem claim_C8_witness :
    (load_remote_cached ⟨1000, some ⟨"cached", 500⟩, "fetched"⟩).didFetch = false ∧
      (load_remote_cached ⟨200000, some ⟨"cached", 500⟩, "fetched"⟩).didFetch = true :=
  ⟨((claim_C8_cache_freshness ⟨1000, some ⟨"cached", 500⟩, "fetched"⟩).1
      ⟨"cached", 500⟩ rfl (by decide)).1,
   ((claim_C8_cache_freshness ⟨200000, some ⟨"cached", 500⟩, "fetched"⟩).2
      (Or.inr ⟨⟨"cached", 500⟩, rfl, by decide⟩)).1⟩

/-- Claim C9: the lookup in lib.rs and the lookup in colors.rs agree on every table and
every name. -/
theorem claim_C9_lookups_agree (m : ColorTable) (name : String) :
    lib_get_color_by_name m name = get_color_by_name m name := by
  simp only [lib_get_color_by_name, get_color_by_name]
  cases assocGet m (strToLower name) <;> rfl

/-- Claim C10: the duplicate rejection uses the generic Custom variant and its message is
exactly the fixed sentence around the lowercased form of the input name. -/
theorem claim_C10_duplicate_message (m : ColorTable) (name : String) (r g b : Nat)
    (h : containsKey m (strToLower name) = true) :
    (add_color m name r g b).1 =
      Except.error (NamedColorsError.Custom
        ("The color \x27" ++ strToLower name ++ "\x27 already exists.")) := by
  simp only [add_color]
  rw [if_pos h]
  rfl

/-- Witness for claim C10: the caller writes "BLUE" and the message spells "blue". -/
theorem claim_C10_witness :
    (add_color [("blue", ⟨0, 0, 255⟩)] "BLUE" 1 2 3).1 =
      Except.error (NamedColorsError.Custom "The color \x27blue\x27 already exists.") := by
  rw [claim_C10_duplicate_message [("blue", ⟨0, 0, 255⟩)] "BLUE" 1 2 3 (by decide)]
  decide
